import Mathlib

/- Shallow embedding of the agent-based self-sorting array simulation
   (src/agent.js, src/simulation.js).

   Conventions:
   * JS numbers holding array indices, distances and counters are modelled
     as `Int` (all arithmetic on them in the source is integral).
   * `Math.random()` draws in `[0,1)` are modelled as explicit rational
     inputs threaded through the functions that consume them.
   * The DOM / timer layer (onTick, onLog, setTimeout) is external I/O and
     carries no simulation state; it is omitted from the state record.
   * JS `null` initial values for `goalIndex` / `pos` are modelled as `0`;
     `Simulation.reset` overwrites both before any read, as in the source. -/

/-- Agent states (the `State` enumeration of src/agent.js). -/
inductive AState where
  | idle
  | moving
  | jammed
  | rerouting
  | satisfied
deriving DecidableEq, Repr

/-- Intent action names returned by `Agent.decide` (`"stay"`, `"wait"`,
`"move"`, `"push"` in the source). -/
inductive ActionKind where
  | stay
  | wait
  | move
  | push
deriving DecidableEq, Repr

/-- The intent object `{ action, direction }` returned by `decide`. -/
structure Intent where
  action : ActionKind
  direction : ℤ
deriving DecidableEq, Repr

/-- One array slot with autonomy (class `Agent` of src/agent.js). -/
structure Agent where
  id : ℕ
  value : ℤ
  goalIndex : ℤ
  pos : ℤ
  state : AState
  energy : ℤ
  patience : ℤ
  jamCount : ℤ
  totalJams : ℕ
  totalSwaps : ℕ
  waitTicks : ℤ
  stubbornness : ℚ
  memory : List String
deriving DecidableEq, Repr

/-- The `Agent` constructor: `new Agent(value)` with the id drawn from the
module-level counter (modelled as an explicit argument). -/
def Agent.init (id : ℕ) (value : ℤ) : Agent :=
  { id := id
    value := value
    goalIndex := 0
    pos := 0
    state := AState.idle
    energy := 100
    patience := 3
    jamCount := 0
    totalJams := 0
    totalSwaps := 0
    waitTicks := 0
    stubbornness := mkRat 3 10
    memory := [] }

/-- Getter `atGoal`: `this.pos === this.goalIndex`. -/
def Agent.atGoal (a : Agent) : Bool :=
  a.pos == a.goalIndex

/-- Getter `distanceToGoal`: `this.goalIndex - this.pos`. -/
def Agent.distanceToGoal (a : Agent) : ℤ :=
  a.goalIndex - a.pos

/-- `_remember(event)`: push the tag, evict the oldest element beyond 12. -/
def Agent.rememberEvent (m : List String) (event : String) : List String :=
  let m' := m ++ [event]
  if m'.length > 12 then m'.tail else m'

/-- `decide(leftNeighbor, rightNeighbor)`: per-tick intent selection.
The source only tests the neighbors for existence (`if (!neighbor)`), so the
neighbor arguments are carried as `Option Agent` and only their `isSome`
matters. Returns the mutated agent together with the intent. -/
def Agent.decide (a : Agent) (leftNeighbor rightNeighbor : Option Agent) :
    Agent × Intent :=
  if a.atGoal then
    ({ a with state := AState.satisfied }, ⟨ActionKind.stay, 0⟩)
  else if a.waitTicks > 0 then
    ({ a with waitTicks := a.waitTicks - 1, state := AState.jammed },
      ⟨ActionKind.wait, 0⟩)
  else
    let dist := a.distanceToGoal
    let wantDir : ℤ := if dist > 0 then 1 else -1
    let neighbor := if wantDir = -1 then leftNeighbor else rightNeighbor
    match neighbor with
    | none => ({ a with state := AState.idle }, ⟨ActionKind.stay, 0⟩)
    | some _ =>
      if a.jamCount ≥ a.patience then
        ({ a with jamCount := 0, state := AState.rerouting },
          ⟨ActionKind.push, -wantDir⟩)
      else
        ({ a with state := AState.moving }, ⟨ActionKind.move, wantDir⟩)

/-- `notifyJam()`: refused-swap bookkeeping with capped linear back-off. -/
def Agent.notifyJam (a : Agent) : Agent :=
  let jc := a.jamCount + 1
  { a with jamCount := jc
           totalJams := a.totalJams + 1
           waitTicks := min jc 3
           state := AState.jammed
           memory := Agent.rememberEvent a.memory "jam" }

/-- `notifySwap(newPos)`: successful-swap bookkeeping. -/
def Agent.notifySwap (a : Agent) (newPos : ℤ) : Agent :=
  { a with pos := newPos
           totalSwaps := a.totalSwaps + 1
           jamCount := max 0 (a.jamCount - 1)
           memory := Agent.rememberEvent a.memory "swap" }

/-- `considerSwap(requesterDir)`: accept/refuse a neighbor's swap request.
`r` is the `Math.random()` draw consumed by whichever probabilistic branch
runs (the unconditional-accept branch ignores it, as the source draws no
random number there). -/
def Agent.considerSwap (a : Agent) (requesterDir : ℤ) (r : ℚ) : Bool :=
  let hypotheticalPos := a.pos + requesterDir
  let currentDist := a.distanceToGoal.natAbs
  let newDist := (a.goalIndex - hypotheticalPos).natAbs
  if newDist < currentDist then true
  else if newDist = currentDist then Decidable.decide (r > mkRat 3 10)
  else Decidable.decide (r > a.stubbornness)

/-- A concrete agent used by several witnesses: value 7, goal 5, position 2. -/
def agentG5P2 : Agent :=
  { Agent.init 0 7 with goalIndex := 5, pos := 2 }

/-- A concrete satisfied agent: goal 4, position 4. -/
def agentG4P4 : Agent :=
  { Agent.init 0 7 with goalIndex := 4, pos := 4 }

/- ------------------------------------------------------------------ -/
/- Claim C2: the three `considerSwap` branches.                        -/
/- ------------------------------------------------------------------ -/

/-- C2: `considerSwap(d)` with random draw `r` accepts unconditionally when
the hypothetical distance strictly improves, accepts iff `r > 0.3` when it
is unchanged, and accepts iff `r > stubbornness` when it strictly worsens
(`mkRat 3 10` is the source's literal `0.3`). -/
theorem C2_considerSwap_branches (a : Agent) (d : ℤ) (r : ℚ) :
    ((a.goalIndex - (a.pos + d)).natAbs < (a.goalIndex - a.pos).natAbs →
      a.considerSwap d r = true) ∧
    ((a.goalIndex - (a.pos + d)).natAbs = (a.goalIndex - a.pos).natAbs →
      (a.considerSwap d r = true ↔ r > mkRat 3 10)) ∧
    ((a.goalIndex - (a.pos + d)).natAbs > (a.goalIndex - a.pos).natAbs →
      (a.considerSwap d r = true ↔ r > a.stubbornness)) := by
  refine ⟨fun h => ?_, fun h => ?_, fun h => ?_⟩
  · simp [Agent.considerSwap, Agent.distanceToGoal, h]
  · simp [Agent.considerSwap, Agent.distanceToGoal, h]
  · have h1 : ¬ (a.goalIndex - (a.pos + d)).natAbs <
        (a.goalIndex - a.pos).natAbs := by omega
    have h2 : ¬ (a.goalIndex - (a.pos + d)).natAbs =
        (a.goalIndex - a.pos).natAbs := by omega
    simp [Agent.considerSwap, Agent.distanceToGoal, h1, h2]

/-- Witness for C2 at a concrete agent: goal 5, pos 2, request `d = 1`
improves the distance, so the swap is accepted regardless of the draw. -/
theorem C2_considerSwap_branches_witness :
    (((5:ℤ) - (2 + 1)).natAbs < ((5:ℤ) - 2).natAbs) ∧
    agentG5P2.considerSwap 1 0 = true :=
  ⟨by decide, (C2_considerSwap_branches agentG5P2 1 0).1 (by decide)⟩

/- ------------------------------------------------------------------ -/
/- Claim C8: back-off cap and jam-count floor.                         -/
/- ------------------------------------------------------------------ -/

/-- Engine-issued notifications an agent can receive, for stating the
jam/back-off invariant over arbitrary call sequences. -/
inductive Notif where
  | jam
  | swapTo (newPos : ℤ)
deriving DecidableEq, Repr

/-- Apply a sequence of `notifyJam` / `notifySwap` calls to an agent. -/
def Agent.applyNotifs (a : Agent) (evs : List Notif) : Agent :=
  evs.foldl (fun acc e =>
    match e with
    | Notif.jam => acc.notifyJam
    | Notif.swapTo p => acc.notifySwap p) a

lemma Agent.notifyJam_jamCount (a : Agent) :
    a.notifyJam.jamCount = a.jamCount + 1 := rfl

lemma Agent.notifySwap_jamCount (a : Agent) (p : ℤ) :
    (a.notifySwap p).jamCount = max 0 (a.jamCount - 1) := rfl

/-- C8: `notifyJam` never assigns `waitTicks` above 3, and across every
sequence of `notifyJam`/`notifySwap` calls a `jamCount` that starts
nonnegative stays nonnegative. -/
theorem C8_backoff_bounds (a : Agent) (evs : List Notif)
    (h : 0 ≤ a.jamCount) :
    a.notifyJam.waitTicks ≤ 3 ∧ 0 ≤ (a.applyNotifs evs).jamCount := by
  constructor
  · show min (a.jamCount + 1) 3 ≤ 3
    omega
  · induction evs generalizing a with
    | nil => exact h
    | cons e rest ih =>
      cases e with
      | jam =>
        have h' : 0 ≤ a.notifyJam.jamCount := by
          rw [Agent.notifyJam_jamCount]; omega
        exact ih a.notifyJam h'
      | swapTo p =>
        have h' : 0 ≤ (a.notifySwap p).jamCount := by
          rw [Agent.notifySwap_jamCount]; omega
        exact ih (a.notifySwap p) h'

/-- Witness for C8 on a fresh agent and a concrete jam/swap/jam history. -/
theorem C8_backoff_bounds_witness :
    0 ≤ (Agent.init 0 1).jamCount ∧
    ((Agent.init 0 1).notifyJam.waitTicks ≤ 3 ∧
      0 ≤ ((Agent.init 0 1).applyNotifs
        [Notif.jam, Notif.swapTo 2, Notif.swapTo 1, Notif.jam]).jamCount) :=
  ⟨by decide, C8_backoff_bounds (Agent.init 0 1)
    [Notif.jam, Notif.swapTo 2, Notif.swapTo 1, Notif.jam] (by decide)⟩

/- ------------------------------------------------------------------ -/
/- Claim C9: the equal-distance branch is unreachable for unit moves.  -/
/- ------------------------------------------------------------------ -/

lemma Agent.decide_move_dir (a : Agent) (l r : Option Agent) :
    (Agent.decide a l r).2.action = ActionKind.move →
    ((Agent.decide a l r).2.direction = 1 ∨
      (Agent.decide a l r).2.direction = -1) := by
  unfold Agent.decide
  repeat' split
  all_goals try simp_all
  all_goals
    rcases hnb : (if a.distanceToGoal ≤ 0 then l else r) with _ | nb <;>
      simp_all <;> omega

/-- C9: for a unit request direction (the only directions the resolution
pass ever passes, since `decide` emits `move` intents with direction ±1 and
the engine negates them), the hypothetical distance never equals the current
distance, so `considerSwap` reduces to the improve/worsen branches and the
probability-0.7 neutral branch is dead code from the engine. -/
theorem C9_neutral_branch_unreachable (a : Agent) (d : ℤ) (r : ℚ)
    (hd : d = 1 ∨ d = -1) :
    ((a.goalIndex - (a.pos + d)).natAbs ≠ (a.goalIndex - a.pos).natAbs) ∧
    (a.considerSwap d r =
      if (a.goalIndex - (a.pos + d)).natAbs < (a.goalIndex - a.pos).natAbs
        then true else Decidable.decide (r > a.stubbornness)) ∧
    (∀ l rn, (Agent.decide a l rn).2.action = ActionKind.move →
      ((Agent.decide a l rn).2.direction = 1 ∨
        (Agent.decide a l rn).2.direction = -1)) := by
  have hne : (a.goalIndex - (a.pos + d)).natAbs ≠
      (a.goalIndex - a.pos).natAbs := by omega
  refine ⟨hne, ?_, fun l rn => Agent.decide_move_dir a l rn⟩
  by_cases hlt :
      (a.goalIndex - (a.pos + d)).natAbs < (a.goalIndex - a.pos).natAbs <;>
    simp [Agent.considerSwap, Agent.distanceToGoal, hlt, hne]

/-- Witness for C9 at a concrete agent and direction `d = 1`. -/
theorem C9_neutral_branch_unreachable_witness :
    ((1:ℤ) = 1 ∨ (1:ℤ) = -1) ∧
    agentG4P4.considerSwap 1 (mkRat 1 2) =
      (if ((4:ℤ) - (4 + 1)).natAbs < ((4:ℤ) - 4).natAbs then true
        else Decidable.decide (mkRat 1 2 > agentG4P4.stubbornness)) :=
  ⟨Or.inl rfl,
    (C9_neutral_branch_unreachable agentG4P4 1 (mkRat 1 2) (Or.inl rfl)).2.1⟩

/- ------------------------------------------------------------------ -/
/- The tick engine (class `Simulation` of src/simulation.js).          -/
/- ------------------------------------------------------------------ -/

/-- Destructuring swap `[arr[i], arr[j]] = [arr[j], arr[i]]` on a list;
out-of-range indices leave the list unchanged (never exercised by the
source, which only swaps valid indices). -/
def swapList {α : Type} (l : List α) (i j : ℕ) : List α :=
  match l[i]?, l[j]? with
  | some a, some b => (l.set i b).set j a
  | _, _ => l

/-- The Fisher–Yates `shuffle` of src/simulation.js, iterating `i` from
`arr.length - 1` down to 1; the draw `Math.floor(Math.random() * (i + 1))`
(uniform on `[0, i]`) is modelled as `draws i % (i + 1)`. -/
def fisherYates {α : Type} (draws : ℕ → ℕ) : ℕ → List α → List α
  | 0, l => l
  | n + 1, l => fisherYates draws n (swapList l (n + 1) (draws (n + 1) % (n + 2)))

/-- `shuffle(arr)`: run Fisher–Yates from the last index down. -/
def shuffleJS {α : Type} (draws : ℕ → ℕ) (l : List α) : List α :=
  fisherYates draws (l.length - 1) l

/-- `[...values].sort((a, b) => a - b)`: the ascending sort of the values.
JS's comparison sort on distinct numbers produces exactly the ascending
ordering, modelled by insertion sort. -/
def sortJS (l : List ℤ) : List ℤ :=
  l.insertionSort (· ≤ ·)

/-- `Array.from({length: count}, (_, i) => i + 1)`: values `1..count`. -/
def baseValues (count : ℕ) : List ℤ :=
  (List.range count).map (fun (i : ℕ) => (i : ℤ) + 1)

/-- Engine state (class `Simulation`). The `onTick`/`onLog` callbacks and
the `_timer` handle are external I/O collaborators and carry no simulation
state; `speed` only feeds the external scheduler. -/
structure Simulation where
  count : ℕ
  stubbornness : ℚ
  agents : List Agent
  step : ℕ
  swaps : ℕ
  jams : ℕ
  reroutes : ℕ
  running : Bool
  speed : ℚ
deriving DecidableEq, Repr

/-- `reset()`: zero the counters, build a shuffled value array, derive each
agent's goal index from the ascending sort, and rebuild the agent list.
`draws` models the `Math.random()` stream of the shuffle; the agent ids
drawn from the module-level counter are modelled by the build index. -/
def Simulation.reset (s : Simulation) (draws : ℕ → ℕ) : Simulation :=
  let values := shuffleJS draws (baseValues s.count)
  let sorted := sortJS values
  let agents := values.enum.map (fun p =>
    { Agent.init p.1 p.2 with
        pos := (p.1 : ℤ)
        goalIndex := ((sorted.indexOf p.2 : ℕ) : ℤ)
        stubbornness := s.stubbornness })
  { s with running := false, step := 0, swaps := 0, jams := 0,
           reroutes := 0, agents := agents }

/-- The `Simulation` constructor: store the configuration and `reset()`. -/
def Simulation.create (count : ℕ) (stubbornness : ℚ) (draws : ℕ → ℕ) :
    Simulation :=
  Simulation.reset
    { count := count, stubbornness := stubbornness, agents := [],
      step := 0, swaps := 0, jams := 0, reroutes := 0,
      running := false, speed := 50 } draws

/-- `isSorted()`: every agent is at its goal. -/
def Simulation.isSorted (s : Simulation) : Bool :=
  s.agents.all Agent.atGoal

/-- Per-agent slice of the per-tick snapshot. -/
structure AgentView where
  id : ℕ
  value : ℤ
  pos : ℤ
  goal : ℤ
  state : AState
  jamCount : ℤ
  totalJams : ℕ
deriving DecidableEq, Repr

/-- The per-tick snapshot record. -/
structure Snapshot where
  step : ℕ
  swaps : ℕ
  jams : ℕ
  reroutes : ℕ
  sorted : Bool
  agents : List AgentView
deriving DecidableEq, Repr

/-- `snapshot()`. -/
def Simulation.snapshot (s : Simulation) : Snapshot :=
  { step := s.step, swaps := s.swaps, jams := s.jams,
    reroutes := s.reroutes, sorted := s.isSorted,
    agents := s.agents.map (fun a =>
      { id := a.id, value := a.value, pos := a.pos, goal := a.goalIndex,
        state := a.state, jamCount := a.jamCount,
        totalJams := a.totalJams }) }

/-- Intent-collection pass of `_tick`: for each index in the drawn order,
call `decide` on the agent there with its live left/right neighbors and
record the intent under that index (`intents[i] = agent.decide(...)`).
The intents array is modelled as a function to `Option Intent` (a JS array
with holes); an out-of-range index leaves state unchanged (unreachable:
the order is a permutation of the in-range indices). -/
def collectIntents : List Agent → List ℕ → (ℕ → Option Intent) →
    List Agent × (ℕ → Option Intent)
  | agents, [], intents => (agents, intents)
  | agents, i :: rest, intents =>
    match agents[i]? with
    | none => collectIntents agents rest intents
    | some agent =>
      let left := if 0 < i then agents[i - 1]? else none
      let right := if i + 1 < agents.length then agents[i + 1]? else none
      let res := Agent.decide agent left right
      collectIntents (agents.set i res.1) rest
        (fun j => if j = i then some res.2 else intents j)

/-- Mutable state of the resolution pass: the live agent list, the per-tick
`swappedThisTick` set, the counter deltas of this tick, and the index of
the next `Math.random()` draw handed to `considerSwap` (advanced once per
`considerSwap` call). -/
structure ResState where
  agents : List Agent
  consumed : List ℕ
  swaps : ℕ
  jams : ℕ
  reroutes : ℕ
  rk : ℕ
deriving Repr

/-- `_swap(i, j)`: exchange the two slots, notify both agents of their new
positions, and count the swap. -/
def ResState.swapAg (st : ResState) (i j : ℕ) : ResState :=
  match st.agents[i]?, st.agents[j]? with
  | some a, some b =>
    { st with
        agents := (st.agents.set i (b.notifySwap (i : ℤ))).set j
          (a.notifySwap (j : ℤ)),
        swaps := st.swaps + 1 }
  | _, _ => st

/-- One iteration of the resolution loop of `_tick` at index `i`: skip
consumed or zero-direction intents and out-of-range targets; force the
swap for `push` intents; otherwise ask the target's `considerSwap` and
either swap or jam the requester. -/
def resolveStep (intents : ℕ → Option Intent) (rand : ℕ → ℚ)
    (st : ResState) (i : ℕ) : ResState :=
  if i ∈ st.consumed then st
  else
    match intents i with
    | none => st
    | some intent =>
      if intent.direction = 0 then st
      else
        let j : ℤ := (i : ℤ) + intent.direction
        if j < 0 ∨ (st.agents.length : ℤ) ≤ j then st
        else
          let jn := j.toNat
          if jn ∈ st.consumed then st
          else
            match st.agents[i]?, st.agents[jn]? with
            | some agent, some neighbor =>
              if intent.action = ActionKind.push then
                { st.swapAg i jn with
                    consumed := jn :: i :: st.consumed,
                    reroutes := st.reroutes + 1 }
              else
                let accepted :=
                  neighbor.considerSwap (-intent.direction) (rand st.rk)
                let st' := { st with rk := st.rk + 1 }
                if accepted then
                  { st'.swapAg i jn with consumed := jn :: i :: st'.consumed }
                else
                  { st' with
                      agents := st'.agents.set i agent.notifyJam,
                      jams := st'.jams + 1 }
            | _, _ => st

/-- The random inputs one `_tick` consumes: the shuffle draws for the
evaluation order and the `Math.random()` stream of `considerSwap`. -/
structure TickOracle where
  orderDraws : ℕ → ℕ
  rand : ℕ → ℚ

/-- `_tick()`: terminal check, then intent collection and resolution over
one random order, then counter accumulation. The snapshot/log emissions go
to external collaborators and do not alter state. -/
def Simulation.tick (s : Simulation) (o : TickOracle) : Simulation :=
  if s.isSorted then
    { s with running := false,
             agents := s.agents.map (fun a =>
               { a with state := AState.satisfied }) }
  else
    let s1 := { s with step := s.step + 1 }
    let order := shuffleJS o.orderDraws (List.range s1.agents.length)
    let collected := collectIntents s1.agents order (fun _ => none)
    let st0 : ResState :=
      { agents := collected.1, consumed := [], swaps := 0, jams := 0,
        reroutes := 0, rk := 0 }
    let st := order.foldl (resolveStep collected.2 o.rand) st0
    { s1 with agents := st.agents,
              swaps := s1.swaps + st.swaps,
              jams := s1.jams + st.jams,
              reroutes := s1.reroutes + st.reroutes }

/-- `stepOnce()`: advance exactly one tick. -/
def Simulation.stepOnce (s : Simulation) (o : TickOracle) : Simulation :=
  s.tick o

/- ------------------------------------------------------------------ -/
/- Concrete simulations used by witnesses and counterexamples.         -/
/- ------------------------------------------------------------------ -/

/-- An oracle with identity order draws (the Fisher–Yates shuffle of the
index list then leaves it unchanged) and all `considerSwap` draws 1/2. -/
def oracleHalf : TickOracle :=
  { orderDraws := fun i => i, rand := fun _ => mkRat 1 2 }

/-- Shuffle draws turning `[1,2,3]` into `[3,2,1]`. -/
def drawsRev3 : ℕ → ℕ := fun i => if i = 2 then 0 else 1

/-- Three agents holding `[3,2,1]`, stubbornness 0. -/
def simRev3 : Simulation := Simulation.create 3 0 drawsRev3

/-- Shuffle draws turning `[1,2]` into `[2,1]`. -/
def drawsRev2 : ℕ → ℕ := fun _ => 0

/-- Two agents holding `[2,1]`. -/
def simRev2 : Simulation := Simulation.create 2 (mkRat 3 10) drawsRev2

/-- Shuffle draws leaving `[1,2]` unchanged. -/
def drawsId2 : ℕ → ℕ := fun _ => 1

/-- Two agents holding `[1,2]`: already sorted at reset. -/
def simSorted2 : Simulation := Simulation.create 2 (mkRat 3 10) drawsId2

/-- Shuffle draws turning `[1,2,3,4,5]` into `[5,3,1,4,2]`. -/
def drawsC7 : ℕ → ℕ := fun i => if i = 4 then 1 else if i = 3 then 3 else 0

/-- Five agents holding `[5,3,1,4,2]` (the spec's goal-assignment vector). -/
def simFive : Simulation := Simulation.create 5 (mkRat 3 10) drawsC7

/-- An agent one step past its patience: value 5, goal 3, pos 1, jamCount 3. -/
def agentJammed : Agent :=
  { Agent.init 0 5 with goalIndex := 3, pos := 1, jamCount := 3 }

/-- A two-agent resolution state with nothing consumed yet. -/
def resStTwo : ResState :=
  { agents := [Agent.init 0 1, Agent.init 1 2], consumed := [],
    swaps := 0, jams := 0, reroutes := 0, rk := 0 }

/-- An intents table with a single leftward push at index 1. -/
def intentsPush : ℕ → Option Intent :=
  fun k => if k = 1 then some ⟨ActionKind.push, -1⟩ else none

/- ------------------------------------------------------------------ -/
/- Claim C6 (corrected): no agent-count validation exists.             -/
/- ------------------------------------------------------------------ -/

/-- C6 counterexample: constructing a simulation with agent count 1 — below
the spec's required minimum of 2 — is not rejected: it succeeds and yields a
1-agent simulation that is already sorted. -/
theorem C6_counterexample_count_one_accepted :
    (Simulation.create 1 (mkRat 3 10) (fun _ => 0)).agents.length = 1 ∧
    (Simulation.create 1 (mkRat 3 10) (fun _ => 0)).isSorted = true := by
  constructor <;> rfl

/-- C6 amended: initialization performs no validation of the agent count.
For every stubbornness and shuffle stream, count 1 yields a one-agent
simulation that is immediately sorted, and count 0 yields an empty
simulation that is vacuously sorted; construction is never rejected. -/
theorem C6_no_count_validation (stub : ℚ) (draws : ℕ → ℕ) :
    (Simulation.create 1 stub draws).agents.length = 1 ∧
    (Simulation.create 1 stub draws).isSorted = true ∧
    (Simulation.create 0 stub draws).agents.length = 0 ∧
    (Simulation.create 0 stub draws).isSorted = true := by
  refine ⟨rfl, rfl, rfl, rfl⟩

/- ------------------------------------------------------------------ -/
/- Claim C3: the forced-push reroute bypasses consent.                 -/
/- ------------------------------------------------------------------ -/

lemma ResState.swapAg_rk (st : ResState) (i j : ℕ) :
    (st.swapAg i j).rk = st.rk := by
  unfold ResState.swapAg
  split <;> rfl

/-- C3: an agent that is not at its goal, has no cooldown, sees its
desired-side neighbor, and has jammed at least `patience` times decides a
forced `push` away from its goal, resetting `jamCount` and entering
`rerouting`; and the resolution pass executes a reachable `push` intent
unconditionally — swapping, consuming both indices and counting a reroute —
without consulting `considerSwap` (the random-draw index is untouched). -/
theorem C3_forced_push :
    (∀ (a : Agent) (l rn : Option Agent) (nb : Agent),
      a.pos ≠ a.goalIndex → a.waitTicks = 0 →
      (if 0 < a.goalIndex - a.pos then rn else l) = some nb →
      a.patience ≤ a.jamCount →
      Agent.decide a l rn =
        ({ a with jamCount := 0, state := AState.rerouting },
          ⟨ActionKind.push,
            -(if 0 < a.goalIndex - a.pos then 1 else -1)⟩)) ∧
    (∀ (intents : ℕ → Option Intent) (rand : ℕ → ℚ) (st : ResState)
        (i : ℕ) (intent : Intent) (agent neighbor : Agent),
      i ∉ st.consumed → intents i = some intent →
      intent.action = ActionKind.push → intent.direction ≠ 0 →
      ¬ ((i : ℤ) + intent.direction < 0 ∨
          (st.agents.length : ℤ) ≤ (i : ℤ) + intent.direction) →
      ((i : ℤ) + intent.direction).toNat ∉ st.consumed →
      st.agents[i]? = some agent →
      st.agents[((i : ℤ) + intent.direction).toNat]? = some neighbor →
      resolveStep intents rand st i =
        { st.swapAg i ((i : ℤ) + intent.direction).toNat with
            consumed :=
              ((i : ℤ) + intent.direction).toNat :: i :: st.consumed,
            reroutes := st.reroutes + 1 } ∧
      (resolveStep intents rand st i).rk = st.rk) := by
  constructor
  · intro a l rn nb h1 h2 h3 h4
    by_cases hd : 0 < a.goalIndex - a.pos
    · rw [if_pos hd] at h3
      simp [Agent.decide, Agent.atGoal, Agent.distanceToGoal, h1, h2, h3,
        h4, hd]
    · rw [if_neg hd] at h3
      simp [Agent.decide, Agent.atGoal, Agent.distanceToGoal, h1, h2, h3,
        h4, hd]
  · intro intents rand st i intent agent neighbor hc hint hact hdir hb hjc
      hai haj
    have heq : resolveStep intents rand st i =
        { st.swapAg i ((i : ℤ) + intent.direction).toNat with
            consumed :=
              ((i : ℤ) + intent.direction).toNat :: i :: st.consumed,
            reroutes := st.reroutes + 1 } := by
      unfold resolveStep
      rw [if_neg hc, hint]
      simp only [hdir, if_neg, ite_false]
      rw [if_neg hb, if_neg hjc, hai, haj]
      simp [hact]
    refine ⟨heq, ?_⟩
    rw [heq]
    exact st.swapAg_rk i _

/-- Witness for C3 at the concrete agent `agentJammed` (goal right of it,
jamCount = patience = 3) and a concrete two-agent resolution state with a
pending leftward push at index 1. -/
theorem C3_forced_push_witness :
    (Agent.decide agentJammed (some (Agent.init 1 2))
        (some (Agent.init 2 9)) =
      ({ agentJammed with jamCount := 0, state := AState.rerouting },
        ⟨ActionKind.push,
          -(if 0 < agentJammed.goalIndex - agentJammed.pos then 1
            else -1)⟩)) ∧
    (resolveStep intentsPush (fun _ => 0) resStTwo 1 =
      { resStTwo.swapAg 1 (((1 : ℕ) : ℤ) + (-1)).toNat with
          consumed :=
            (((1 : ℕ) : ℤ) + (-1)).toNat :: 1 :: resStTwo.consumed,
          reroutes := resStTwo.reroutes + 1 } ∧
      (resolveStep intentsPush (fun _ => 0) resStTwo 1).rk = resStTwo.rk) := by
  constructor
  · exact C3_forced_push.1 agentJammed (some (Agent.init 1 2))
      (some (Agent.init 2 9)) (Agent.init 2 9) (by decide) (by decide)
      (by decide) (by decide)
  · exact C3_forced_push.2 intentsPush (fun _ => 0) resStTwo 1
      ⟨ActionKind.push, -1⟩ (Agent.init 1 2) (Agent.init 0 1)
      (by decide) (by decide) (by decide) (by decide) (by decide)
      (by decide) (by decide) (by decide)

/- ------------------------------------------------------------------ -/
/- Claim C5: the terminal tick is idempotent.                          -/
/- ------------------------------------------------------------------ -/

/-- The sorted branch of `_tick`: stop, satisfy everyone, emit. -/
lemma Simulation.tick_of_sorted (s : Simulation) (o : TickOracle)
    (h : s.isSorted = true) :
    s.tick o =
      { s with running := false,
               agents := s.agents.map (fun a =>
                 { a with state := AState.satisfied }) } := by
  simp [Simulation.tick, h]

/-- C5: once `isSorted` holds, a tick leaves `step`, `swaps`, `jams` and
`reroutes` unchanged, forces every agent's state to `satisfied`, and a
further tick is the identity on the result. -/
theorem C5_terminal_idempotent (s : Simulation) (o o' : TickOracle)
    (h : s.isSorted = true) :
    (s.tick o).step = s.step ∧ (s.tick o).swaps = s.swaps ∧
    (s.tick o).jams = s.jams ∧ (s.tick o).reroutes = s.reroutes ∧
    (∀ a ∈ (s.tick o).agents, a.state = AState.satisfied) ∧
    (s.tick o).tick o' = s.tick o := by
  have ht := Simulation.tick_of_sorted s o h
  have hsorted2 : (s.tick o).isSorted = true := by
    rw [ht]
    simp only [Simulation.isSorted] at h ⊢
    rw [List.all_map]
    exact h
  have ht2 := Simulation.tick_of_sorted (s.tick o) o' hsorted2
  refine ⟨by rw [ht], by rw [ht], by rw [ht], by rw [ht], ?_, ?_⟩
  · rw [ht]
    intro a ha
    simp only [List.mem_map] at ha
    obtain ⟨b, _, rfl⟩ := ha
    rfl
  · rw [ht2, ht]
    simp only [Simulation.mk.injEq, List.map_map, and_true, true_and]
    exact List.map_congr_left (fun a _ => rfl)

/-- Witness for C5 at the already-sorted two-agent simulation. -/
theorem C5_terminal_idempotent_witness :
    simSorted2.isSorted = true ∧
    ((simSorted2.tick oracleHalf).step = simSorted2.step ∧
      (simSorted2.tick oracleHalf).swaps = simSorted2.swaps ∧
      (simSorted2.tick oracleHalf).jams = simSorted2.jams ∧
      (simSorted2.tick oracleHalf).reroutes = simSorted2.reroutes ∧
      (∀ a ∈ (simSorted2.tick oracleHalf).agents,
        a.state = AState.satisfied) ∧
      (simSorted2.tick oracleHalf).tick oracleHalf =
        simSorted2.tick oracleHalf) :=
  ⟨by decide,
    C5_terminal_idempotent simSorted2 oracleHalf oracleHalf (by decide)⟩

/- ------------------------------------------------------------------ -/
/- Claim C10: `notifySwap` leaves `state` alone; sorted snapshot with   -/
/- non-satisfied states on the tick of the final swap.                 -/
/- ------------------------------------------------------------------ -/

/-- C10: `notifySwap` updates `pos`, `totalSwaps`, `jamCount` and `memory`
but never the `state` field; consequently, on the two-agent run `[2,1]` the
tick that performs the final swap emits a snapshot with `sorted = true`
while both participants still report the `moving` state set by `decide`,
and only the next tick forces `satisfied` on every agent. -/
theorem C10_notifySwap_state_frame :
    (∀ (a : Agent) (p : ℤ),
      (a.notifySwap p).state = a.state ∧
      (a.notifySwap p).goalIndex = a.goalIndex ∧
      (a.notifySwap p).waitTicks = a.waitTicks ∧
      (a.notifySwap p).stubbornness = a.stubbornness ∧
      (a.notifySwap p).pos = p ∧
      (a.notifySwap p).totalSwaps = a.totalSwaps + 1 ∧
      (a.notifySwap p).jamCount = max 0 (a.jamCount - 1) ∧
      (a.notifySwap p).memory = Agent.rememberEvent a.memory "swap") ∧
    ((simRev2.tick oracleHalf).snapshot.sorted = true ∧
      (simRev2.tick oracleHalf).snapshot.agents.map (fun v => v.state) =
        [AState.moving, AState.moving] ∧
      ((simRev2.tick oracleHalf).tick oracleHalf).agents.map
        (fun a => a.state) = [AState.satisfied, AState.satisfied]) := by
  refine ⟨fun a p => ⟨rfl, rfl, rfl, rfl, rfl, rfl, rfl, rfl⟩, ?_, ?_, ?_⟩
  · decide
  · decide
  · decide


/- ------------------------------------------------------------------ -/
/- List permutation facts about the shuffle and the sort.              -/
/- ------------------------------------------------------------------ -/

lemma cons_set_perm {α : Type} :
    ∀ (xs : List α) (k : ℕ) (hk : k < xs.length) (x : α),
      (xs.get ⟨k, hk⟩ :: xs.set k x).Perm (x :: xs)
  | y :: ys, 0, _, x => List.Perm.swap x y ys
  | y :: ys, k + 1, hk, x => by
    have hk' : k < ys.length := by simpa using hk
    have ih := cons_set_perm ys k hk' x
    have h1 : (ys.get ⟨k, hk'⟩ :: y :: ys.set k x).Perm
        (y :: ys.get ⟨k, hk'⟩ :: ys.set k x) := List.Perm.swap _ _ _
    have h2 : (y :: ys.get ⟨k, hk'⟩ :: ys.set k x).Perm
        (y :: x :: ys) := ih.cons y
    have h3 : (y :: x :: ys).Perm (x :: y :: ys) := List.Perm.swap _ _ _
    exact (h1.trans h2).trans h3

lemma set_set_swap_perm {α : Type} :
    ∀ (l : List α) (i j : ℕ) (hi : i < l.length) (hj : j < l.length),
      ((l.set i (l.get ⟨j, hj⟩)).set j (l.get ⟨i, hi⟩)).Perm l
  | x :: xs, 0, 0, _, _ => by simp
  | x :: xs, 0, j + 1, _, hj => by
    have hj' : j < xs.length := by simpa using hj
    simpa using cons_set_perm xs j hj' x
  | x :: xs, i + 1, 0, hi, _ => by
    have hi' : i < xs.length := by simpa using hi
    simpa using cons_set_perm xs i hi' x
  | x :: xs, i + 1, j + 1, hi, hj => by
    have ih := set_set_swap_perm xs i j (by simpa using hi)
      (by simpa using hj)
    simpa using ih.cons x

lemma swapList_perm {α : Type} (l : List α) (i j : ℕ) :
    (swapList l i j).Perm l := by
  unfold swapList
  split
  · next a b ha hb =>
    obtain ⟨hi, ha'⟩ := List.getElem?_eq_some.mp ha
    obtain ⟨hj, hb'⟩ := List.getElem?_eq_some.mp hb
    have h := set_set_swap_perm l i j hi hj
    simpa [List.get_eq_getElem, ha', hb'] using h
  · exact List.Perm.refl l

lemma fisherYates_perm {α : Type} (draws : ℕ → ℕ) :
    ∀ (n : ℕ) (l : List α), (fisherYates draws n l).Perm l
  | 0, l => List.Perm.refl l
  | n + 1, l => by
    have h1 := fisherYates_perm draws n
      (swapList l (n + 1) (draws (n + 1) % (n + 2)))
    exact h1.trans (swapList_perm l _ _)

lemma shuffleJS_perm {α : Type} (draws : ℕ → ℕ) (l : List α) :
    (shuffleJS draws l).Perm l :=
  fisherYates_perm draws _ l

lemma sortJS_perm (l : List ℤ) : (sortJS l).Perm l :=
  List.perm_insertionSort _ l

lemma sortJS_sorted (l : List ℤ) : (sortJS l).Sorted (· ≤ ·) :=
  List.sorted_insertionSort _ l

lemma sortJS_sortedLT (l : List ℤ) (h : l.Nodup) :
    (sortJS l).Sorted (· < ·) :=
  List.Sorted.lt_of_le (sortJS_sorted l) ((sortJS_perm l).nodup_iff.mpr h)

lemma baseValues_nodup (n : ℕ) : (baseValues n).Nodup := by
  have h : Function.Injective (fun (i : ℕ) => (i : ℤ) + 1) := by
    intro x y hxy
    have hxy' : (x : ℤ) + 1 = (y : ℤ) + 1 := hxy
    omega
  exact List.Nodup.map h (List.nodup_range n)

lemma indexOf_getElem_self (l : List ℤ) (hnd : l.Nodup) (m : ℕ)
    (hm : m < l.length) : l.indexOf l[m] = m := by
  have hmem : l[m] ∈ l := List.getElem_mem hm
  have h1 : l.indexOf l[m] < l.length :=
    List.indexOf_lt_length.mpr hmem
  have h2 : l.get ⟨l.indexOf l[m], h1⟩ = l.get ⟨m, hm⟩ :=
    List.indexOf_get h1
  have h3 := (hnd.get_inj_iff).mp h2
  exact congrArg Fin.val h3

lemma filter_lt_length_of_sortedLT :
    ∀ (l : List ℤ), l.Sorted (· < ·) → ∀ (m : ℕ) (hm : m < l.length),
      (l.filter (fun x => x < l[m])).length = m
  | [], _, m, hm => by simp at hm
  | a :: t, hs, 0, hm => by
    obtain ⟨ha, ht⟩ := List.sorted_cons.mp hs
    have h0 : (a :: t)[0] = a := rfl
    rw [h0]
    have hnil : (a :: t).filter (fun x => x < a) = [] := by
      rw [List.filter_eq_nil_iff]
      intro b hb
      rcases List.mem_cons.mp hb with hb | hb
      · subst hb; simp
      · have := ha b hb; simp; omega
    rw [hnil]
    rfl
  | a :: t, hs, m + 1, hm => by
    obtain ⟨ha, ht⟩ := List.sorted_cons.mp hs
    have hm' : m < t.length := by simpa using hm
    have hget : (a :: t)[m + 1] = t[m] := rfl
    rw [hget]
    have hav : a < t[m] := ha _ (List.getElem_mem hm')
    have hd : decide (a < t[m]) = true := decide_eq_true hav
    have hstep : (a :: t).filter (fun x => x < t[m]) =
        a :: t.filter (fun x => x < t[m]) := by
      simp only [List.filter_cons, hd, if_true]
    rw [hstep, List.length_cons,
      filter_lt_length_of_sortedLT t ht m hm']

/- ------------------------------------------------------------------ -/
/- Claim C7: goal assignment is the rank of the value.                 -/
/- ------------------------------------------------------------------ -/

/-- C7: after `reset`, the agent at any slot has `goalIndex` equal to the
rank of its value among all agent values (the number of values strictly
below it); in particular value `v` of the shuffled `1..n` pool gets goal
`v - 1`, e.g. value 1 ↦ goal 0 for the pool `[5,3,1,4,2]`. -/
theorem C7_goal_is_rank (s0 : Simulation) (draws : ℕ → ℕ) (k : ℕ)
    (a : Agent) (ha : (s0.reset draws).agents[k]? = some a) :
    a.goalIndex =
      ((((s0.reset draws).agents.map (fun x => x.value)).filter
        (fun w => w < a.value)).length : ℤ) := by
  set values := shuffleJS draws (baseValues s0.count) with hv
  have hnd : values.Nodup :=
    (shuffleJS_perm draws (baseValues s0.count)).symm.nodup
      (baseValues_nodup s0.count)
  have hsp : (sortJS values).Perm values := sortJS_perm values
  have hlt : (sortJS values).Sorted (· < ·) := sortJS_sortedLT values hnd
  have hagents : (s0.reset draws).agents = values.enum.map (fun p =>
      { Agent.init p.1 p.2 with
          pos := (p.1 : ℤ)
          goalIndex := (((sortJS values).indexOf p.2 : ℕ) : ℤ)
          stubbornness := s0.stubbornness }) := rfl
  have hvals : (s0.reset draws).agents.map (fun x => x.value) = values := by
    rw [hagents, List.map_map]
    have hcomp : ((fun x : Agent => x.value) ∘ (fun p : ℕ × ℤ =>
        { Agent.init p.1 p.2 with
            pos := (p.1 : ℤ)
            goalIndex := (((sortJS values).indexOf p.2 : ℕ) : ℤ)
            stubbornness := s0.stubbornness })) = Prod.snd := rfl
    rw [hcomp, List.enum_map_snd]
  rw [hagents] at ha
  rw [List.getElem?_map, List.getElem?_enum] at ha
  rcases hvk : values[k]? with _ | v
  · rw [hvk] at ha; cases ha
  · rw [hvk] at ha
    obtain ⟨hk', hvv⟩ := List.getElem?_eq_some.mp hvk
    have haeq : a = { Agent.init k v with
        pos := (k : ℤ)
        goalIndex := (((sortJS values).indexOf v : ℕ) : ℤ)
        stubbornness := s0.stubbornness } := by
      cases ha
      rfl
    rw [hvals, haeq]
    show (((sortJS values).indexOf v : ℕ) : ℤ) =
      ((values.filter (fun w => w < v)).length : ℤ)
    have hvmem : v ∈ sortJS values := by
      refine hsp.symm.subset ?_
      rw [← hvv]
      exact List.getElem_mem hk'
    have hidx : (sortJS values).indexOf v < (sortJS values).length :=
      List.indexOf_lt_length.mpr hvmem
    have hval : (sortJS values)[(sortJS values).indexOf v] = v := by
      exact List.indexOf_get (a := v) (l := sortJS values) hidx
    have hflen := filter_lt_length_of_sortedLT (sortJS values) hlt _ hidx
    rw [hval] at hflen
    have hperm : ((sortJS values).filter (fun w => w < v)).length =
        (values.filter (fun w => w < v)).length :=
      (hsp.filter _).length_eq
    rw [← hperm, hflen]

/-- The agent stored at slot 2 of the `[5,3,1,4,2]` simulation. -/
def agentFifth : Agent := simFive.agents.getD 2 (Agent.init 0 0)

/-- Witness for C7 on the pool `[5,3,1,4,2]`: the agent at slot 2 holds
value 1 and has goal index 0, the rank of 1. -/
theorem C7_goal_is_rank_witness :
    (agentFifth.value = 1 ∧ agentFifth.goalIndex = 0 ∧
      simFive.agents[2]? = some agentFifth) ∧
    agentFifth.goalIndex =
      (((simFive.agents.map (fun x => x.value)).filter
        (fun w => w < agentFifth.value)).length : ℤ) :=
  ⟨⟨by decide, by decide, by decide⟩,
    C7_goal_is_rank
      { count := 5, stubbornness := mkRat 3 10, agents := [], step := 0,
        swaps := 0, jams := 0, reroutes := 0, running := false,
        speed := 50 } drawsC7 2 agentFifth (by decide)⟩

/- ------------------------------------------------------------------ -/
/- Claim C1: machinery — invariants preserved by the tick engine.      -/
/- ------------------------------------------------------------------ -/

/-- The identity of an agent for multiset bookkeeping: its (value, goal)
assignment, fixed at reset. -/
def pairVG (a : Agent) : ℤ × ℤ := (a.value, a.goalIndex)

/-- Every slot holds an agent whose `pos` field is that slot's index (so
the `pos` values are exactly a permutation of `[0, n)`). -/
def posInv (l : List Agent) : Prop :=
  ∀ (k : ℕ) (h : k < l.length), l[k].pos = (k : ℤ)

/-- The multiset of `goalIndex` values is exactly `{0, …, n-1}`. -/
def goalsPerm (l : List Agent) : Prop :=
  (l.map (fun a => a.goalIndex)).Perm
    ((List.range l.length).map (fun (k : ℕ) => (k : ℤ)))

lemma Agent.decide_fst_frame (a : Agent) (l r : Option Agent) :
    (Agent.decide a l r).1.pos = a.pos ∧
    pairVG (Agent.decide a l r).1 = pairVG a := by
  unfold Agent.decide
  repeat' split
  all_goals try simp_all [pairVG]
  all_goals
    rcases hnb : (if a.distanceToGoal ≤ 0 then l else r) with _ | nb <;>
      simp_all [pairVG]

lemma Agent.notifyJam_pos (a : Agent) : a.notifyJam.pos = a.pos := rfl

lemma Agent.notifyJam_pairVG (a : Agent) :
    pairVG a.notifyJam = pairVG a := rfl

lemma Agent.notifySwap_pos (a : Agent) (p : ℤ) :
    (a.notifySwap p).pos = p := rfl

lemma Agent.notifySwap_pairVG (a : Agent) (p : ℤ) :
    pairVG (a.notifySwap p) = pairVG a := rfl

lemma map_set_self_of_eq {β : Type} (p : Agent → β) (l : List Agent)
    (i : ℕ) (a' : Agent) (hi : i < l.length) (he : p a' = p l[i]) :
    (l.set i a').map p = l.map p := by
  apply List.ext_getElem (by simp)
  intro k h1 h2
  simp only [List.getElem_map]
  by_cases hik : i = k
  · subst hik
    rw [List.getElem_set_self, he]
  · rw [List.getElem_set_ne hik]

lemma posInv_set (l : List Agent) (i : ℕ) (a' : Agent)
    (hl : posInv l) (hpos : ∀ (h : i < l.length), a'.pos = l[i].pos) :
    posInv (l.set i a') := by
  intro k hk
  have hk' : k < l.length := by simpa using hk
  by_cases hik : i = k
  · subst hik
    rw [List.getElem_set_self, hpos hk']
    exact hl _ hk'
  · rw [List.getElem_set_ne hik]
    exact hl _ hk'

lemma ResState.swapAg_agents_inv (st : ResState) (i j : ℕ) :
    (st.swapAg i j).agents.length = st.agents.length ∧
    (posInv st.agents → posInv (st.swapAg i j).agents) ∧
    ((st.swapAg i j).agents.map pairVG).Perm (st.agents.map pairVG) := by
  unfold ResState.swapAg
  split
  · next a b ha hb =>
    obtain ⟨hi, ha'⟩ := List.getElem?_eq_some.mp ha
    obtain ⟨hj, hb'⟩ := List.getElem?_eq_some.mp hb
    refine ⟨by simp, ?_, ?_⟩
    · intro hpos
      have h1 : posInv (st.agents.set i (b.notifySwap (i : ℤ))) := by
        refine posInv_set _ _ _ hpos ?_
        intro h
        rw [Agent.notifySwap_pos]
        exact (hpos i h).symm
      refine posInv_set _ _ _ h1 ?_
      intro h
      rw [Agent.notifySwap_pos]
      have hj2 : j < (st.agents.set i (b.notifySwap (i : ℤ))).length := by
        simpa using hj
      exact (h1 j hj2).symm
    · rw [List.map_set, List.map_set, Agent.notifySwap_pairVG,
        Agent.notifySwap_pairVG]
      have hi' : i < (st.agents.map pairVG).length := by simpa using hi
      have hj' : j < (st.agents.map pairVG).length := by simpa using hj
      have hbj : pairVG b = (st.agents.map pairVG).get ⟨j, hj'⟩ := by
        rw [List.get_eq_getElem, List.getElem_map, hb']
      have hai : pairVG a = (st.agents.map pairVG).get ⟨i, hi'⟩ := by
        rw [List.get_eq_getElem, List.getElem_map, ha']
      rw [hbj, hai]
      exact set_set_swap_perm _ i j hi' hj'
  · exact ⟨rfl, fun h => h, List.Perm.refl _⟩

lemma resolveStep_agents_inv (it : ℕ → Option Intent) (rn : ℕ → ℚ)
    (st : ResState) (i : ℕ) :
    ((resolveStep it rn st i).agents.length = st.agents.length) ∧
    (posInv st.agents → posInv (resolveStep it rn st i).agents) ∧
    (((resolveStep it rn st i).agents.map pairVG).Perm
      (st.agents.map pairVG)) := by
  unfold resolveStep
  dsimp only
  split
  · exact ⟨rfl, fun h => h, List.Perm.refl _⟩
  · split
    · exact ⟨rfl, fun h => h, List.Perm.refl _⟩
    · split
      · exact ⟨rfl, fun h => h, List.Perm.refl _⟩
      · split
        · exact ⟨rfl, fun h => h, List.Perm.refl _⟩
        · split
          · exact ⟨rfl, fun h => h, List.Perm.refl _⟩
          · split
            · next agent neighbor ha hb =>
              split
              · exact ⟨(ResState.swapAg_agents_inv st i _).1,
                  (ResState.swapAg_agents_inv st i _).2.1,
                  (ResState.swapAg_agents_inv st i _).2.2⟩
              · split
                · exact ⟨(ResState.swapAg_agents_inv
                      { st with rk := st.rk + 1 } i _).1,
                    (ResState.swapAg_agents_inv
                      { st with rk := st.rk + 1 } i _).2.1,
                    (ResState.swapAg_agents_inv
                      { st with rk := st.rk + 1 } i _).2.2⟩
                · obtain ⟨hi, ha'⟩ := List.getElem?_eq_some.mp ha
                  refine ⟨by simp, ?_, ?_⟩
                  · intro hpos
                    refine posInv_set _ _ _ hpos ?_
                    intro h
                    rw [Agent.notifyJam_pos, ha']
                  · rw [map_set_self_of_eq pairVG _ _ _ hi
                      (by rw [Agent.notifyJam_pairVG, ha'])]
            · exact ⟨rfl, fun h => h, List.Perm.refl _⟩

lemma resolve_fold_agents_inv (it : ℕ → Option Intent) (rn : ℕ → ℚ) :
    ∀ (order : List ℕ) (st : ResState),
      ((order.foldl (resolveStep it rn) st).agents.length =
        st.agents.length) ∧
      (posInv st.agents →
        posInv (order.foldl (resolveStep it rn) st).agents) ∧
      (((order.foldl (resolveStep it rn) st).agents.map pairVG).Perm
        (st.agents.map pairVG))
  | [], st => ⟨rfl, fun h => h, List.Perm.refl _⟩
  | i :: rest, st => by
    have hstep := resolveStep_agents_inv it rn st i
    have ih := resolve_fold_agents_inv it rn rest (resolveStep it rn st i)
    exact ⟨ih.1.trans hstep.1, fun h => ih.2.1 (hstep.2.1 h),
      ih.2.2.trans hstep.2.2⟩

lemma collectIntents_agents_inv :
    ∀ (agents : List Agent) (order : List ℕ) (it : ℕ → Option Intent),
      ((collectIntents agents order it).1.length = agents.length) ∧
      (posInv agents → posInv (collectIntents agents order it).1) ∧
      (((collectIntents agents order it).1.map pairVG).Perm
        (agents.map pairVG))
  | _, [], _ => ⟨rfl, fun h => h, List.Perm.refl _⟩
  | agents, i :: rest, it => by
    unfold collectIntents
    rcases ha : agents[i]? with _ | agent
    · exact collectIntents_agents_inv agents rest it
    · obtain ⟨hi, ha'⟩ := List.getElem?_eq_some.mp ha
      dsimp only
      have frame := Agent.decide_fst_frame agent
        (if 0 < i then agents[i - 1]? else none)
        (if i + 1 < agents.length then agents[i + 1]? else none)
      have hset : (agents.set i (Agent.decide agent
          (if 0 < i then agents[i - 1]? else none)
          (if i + 1 < agents.length then agents[i + 1]? else none)).1).length
          = agents.length := by simp
      have ih := collectIntents_agents_inv
        (agents.set i (Agent.decide agent
          (if 0 < i then agents[i - 1]? else none)
          (if i + 1 < agents.length then agents[i + 1]? else none)).1)
        rest
        (fun j => if j = i then some (Agent.decide agent
          (if 0 < i then agents[i - 1]? else none)
          (if i + 1 < agents.length then agents[i + 1]? else none)).2
          else it j)
      refine ⟨ih.1.trans hset, ?_, ?_⟩
      · intro hpos
        refine ih.2.1 (posInv_set _ _ _ hpos ?_)
        intro h
        rw [frame.1, ha']
      · refine ih.2.2.trans ?_
        rw [map_set_self_of_eq pairVG _ _ _ hi (by rw [frame.2, ha'])]

lemma Simulation.tick_agents_inv (s : Simulation) (o : TickOracle) :
    ((s.tick o).agents.length = s.agents.length) ∧
    (posInv s.agents → posInv (s.tick o).agents) ∧
    (((s.tick o).agents.map pairVG).Perm (s.agents.map pairVG)) := by
  unfold Simulation.tick
  split
  · refine ⟨by simp, ?_, ?_⟩
    · intro h k hk
      have hk' : k < s.agents.length := by simpa using hk
      simp only [List.getElem_map]
      exact h _ hk'
    · rw [List.map_map]
      have hcomp : (pairVG ∘ fun a : Agent =>
          { a with state := AState.satisfied }) = pairVG := rfl
      rw [hcomp]
  · dsimp only
    exact ⟨((resolve_fold_agents_inv _ _ _ _).1).trans
        ((collectIntents_agents_inv _ _ _).1),
      fun h => (resolve_fold_agents_inv _ _ _ _).2.1
        ((collectIntents_agents_inv _ _ _).2.1 h),
      ((resolve_fold_agents_inv _ _ _ _).2.2).trans
        ((collectIntents_agents_inv _ _ _).2.2)⟩

lemma Simulation.reset_agents_inv (s0 : Simulation) (draws : ℕ → ℕ) :
    posInv (s0.reset draws).agents ∧ goalsPerm (s0.reset draws).agents := by
  set values := shuffleJS draws (baseValues s0.count) with hv
  have hnd : values.Nodup :=
    (shuffleJS_perm draws (baseValues s0.count)).symm.nodup
      (baseValues_nodup s0.count)
  have hsp : (sortJS values).Perm values := sortJS_perm values
  have hsnd : (sortJS values).Nodup := hsp.symm.nodup hnd
  have hagents : (s0.reset draws).agents = values.enum.map (fun p =>
      { Agent.init p.1 p.2 with
          pos := (p.1 : ℤ)
          goalIndex := (((sortJS values).indexOf p.2 : ℕ) : ℤ)
          stubbornness := s0.stubbornness }) := rfl
  have hlen : (s0.reset draws).agents.length = values.length := by
    rw [hagents, List.length_map, List.enum_length]
  constructor
  · intro k hk
    have hk' : k < values.enum.length := by
      rw [hlen] at hk
      simpa [List.enum_length] using hk
    have he := List.getElem_of_eq hagents hk
    rw [he, List.getElem_map, List.getElem_enum]
  · unfold goalsPerm
    have hmap : (s0.reset draws).agents.map (fun a => a.goalIndex) =
        values.map (fun v => (((sortJS values).indexOf v : ℕ) : ℤ)) := by
      rw [hagents, List.map_map]
      have hcomp : ((fun a : Agent => a.goalIndex) ∘ (fun p : ℕ × ℤ =>
          { Agent.init p.1 p.2 with
              pos := (p.1 : ℤ)
              goalIndex := (((sortJS values).indexOf p.2 : ℕ) : ℤ)
              stubbornness := s0.stubbornness })) =
          ((fun v : ℤ => (((sortJS values).indexOf v : ℕ) : ℤ)) ∘
            Prod.snd) := rfl
      rw [hcomp, ← List.map_map, List.enum_map_snd]
    have hsortmap : (sortJS values).map
        (fun v => (((sortJS values).indexOf v : ℕ) : ℤ)) =
        (List.range values.length).map (fun (k : ℕ) => (k : ℤ)) := by
      apply List.ext_getElem
      · rw [List.length_map, List.length_map, List.length_range,
          hsp.length_eq]
      · intro m h1 h2
        rw [List.getElem_map, List.getElem_map, List.getElem_range]
        rw [List.length_map] at h1
        rw [indexOf_getElem_self (sortJS values) hsnd m h1]
    rw [hmap, hlen]
    have hperm := hsp.symm.map
      (fun v => (((sortJS values).indexOf v : ℕ) : ℤ))
    rw [hsortmap] at hperm
    exact hperm

/- ------------------------------------------------------------------ -/
/- Claim C1: the permutation invariant.                                -/
/- ------------------------------------------------------------------ -/

/-- C1: after `reset`, slot `k` holds an agent with `pos = k` (so the `pos`
values form exactly `{0, …, n-1}`) and the `goalIndex` values are exactly
`{0, …, n-1}`; and every tick preserves the slot/`pos` correspondence, the
agent count, and the multiset of `(value, goalIndex)` assignments (so each
agent's `goalIndex` is unchanged and the goal permutation persists). -/
theorem C1_permutation_invariant :
    (∀ (s0 : Simulation) (draws : ℕ → ℕ),
      posInv (s0.reset draws).agents ∧ goalsPerm (s0.reset draws).agents) ∧
    (∀ (s : Simulation) (o : TickOracle),
      posInv s.agents →
      posInv (s.tick o).agents ∧
      (s.tick o).agents.length = s.agents.length ∧
      ((s.tick o).agents.map pairVG).Perm (s.agents.map pairVG) ∧
      (goalsPerm s.agents → goalsPerm (s.tick o).agents)) := by
  constructor
  · intro s0 draws
    exact Simulation.reset_agents_inv s0 draws
  · intro s o hpos
    have h := Simulation.tick_agents_inv s o
    refine ⟨h.2.1 hpos, h.1, h.2.2, ?_⟩
    intro hg
    unfold goalsPerm at hg ⊢
    have h2 := h.2.2.map Prod.snd
    rw [List.map_map, List.map_map] at h2
    have e1 : (Prod.snd ∘ pairVG) = (fun a : Agent => a.goalIndex) := rfl
    rw [e1] at h2
    rw [h.1]
    exact h2.trans hg

lemma pos_of_getElem? (l : List Agent) (k : ℕ) (h : k < l.length)
    (hp : l[k]?.map (fun a => a.pos) = some (k : ℤ)) :
    l[k].pos = (k : ℤ) := by
  rw [List.getElem?_eq_getElem h] at hp
  simpa using hp

/-- Witness for C1: the `[5,3,1,4,2]` reset and one tick of the `[3,2,1]`
zero-stubbornness simulation. -/
theorem C1_permutation_invariant_witness :
    (posInv simFive.agents ∧ goalsPerm simFive.agents) ∧
    (posInv simRev3.agents ∧
      (posInv (simRev3.tick oracleHalf).agents ∧
        (simRev3.tick oracleHalf).agents.length = simRev3.agents.length ∧
        ((simRev3.tick oracleHalf).agents.map pairVG).Perm
          (simRev3.agents.map pairVG) ∧
        (goalsPerm simRev3.agents →
          goalsPerm (simRev3.tick oracleHalf).agents))) := by
  have hpos3 : posInv simRev3.agents := by
    intro k h
    have hlen : simRev3.agents.length = 3 := by decide
    have h3 : k < 3 := by omega
    interval_cases k <;> exact pos_of_getElem? _ _ h (by decide)
  exact ⟨C1_permutation_invariant.1
      { count := 5, stubbornness := mkRat 3 10, agents := [], step := 0,
        swaps := 0, jams := 0, reroutes := 0, running := false,
        speed := 50 } drawsC7,
    hpos3, C1_permutation_invariant.2 simRev3 oracleHalf hpos3⟩

/- ------------------------------------------------------------------ -/
/- Claim C4: machinery — the tick dynamics factor through the fields   -/
/- the engine actually reads (pos, goalIndex, patience, jamCount,      -/
/- waitTicks, stubbornness); counters, memory, state and identity are  -/
/- write-only.                                                         -/
/- ------------------------------------------------------------------ -/

/-- Normalize away the write-only fields of an agent. Two agents with the
same normalization generate identical dynamics. -/
def normAg (a : Agent) : Agent :=
  { a with id := 0, value := 0, state := AState.idle, energy := 0,
           totalJams := 0, totalSwaps := 0, memory := [] }

lemma normAg_pos {a b : Agent} (h : normAg a = normAg b) :
    a.pos = b.pos :=
  (congrArg Agent.pos h : (normAg a).pos = (normAg b).pos)

lemma normAg_goal {a b : Agent} (h : normAg a = normAg b) :
    a.goalIndex = b.goalIndex :=
  (congrArg Agent.goalIndex h : (normAg a).goalIndex = (normAg b).goalIndex)

lemma normAg_patience {a b : Agent} (h : normAg a = normAg b) :
    a.patience = b.patience :=
  (congrArg Agent.patience h : (normAg a).patience = (normAg b).patience)

lemma normAg_jamCount {a b : Agent} (h : normAg a = normAg b) :
    a.jamCount = b.jamCount :=
  (congrArg Agent.jamCount h : (normAg a).jamCount = (normAg b).jamCount)

lemma normAg_waitTicks {a b : Agent} (h : normAg a = normAg b) :
    a.waitTicks = b.waitTicks :=
  (congrArg Agent.waitTicks h : (normAg a).waitTicks = (normAg b).waitTicks)

lemma normAg_stubbornness {a b : Agent} (h : normAg a = normAg b) :
    a.stubbornness = b.stubbornness :=
  (congrArg Agent.stubbornness h : (normAg a).stubbornness = (normAg b).stubbornness)

lemma considerSwap_norm {a b : Agent} (h : normAg a = normAg b)
    (d : ℤ) (r : ℚ) : a.considerSwap d r = b.considerSwap d r := by
  unfold Agent.considerSwap Agent.distanceToGoal
  rw [normAg_pos h, normAg_goal h, normAg_stubbornness h]

lemma notifyJam_norm {a b : Agent} (h : normAg a = normAg b) :
    normAg a.notifyJam = normAg b.notifyJam := by
  simp only [Agent.notifyJam, normAg, Agent.mk.injEq]
  rw [normAg_pos h, normAg_goal h, normAg_patience h, normAg_jamCount h,
    normAg_stubbornness h]
  simp

lemma notifySwap_norm {a b : Agent} (h : normAg a = normAg b) (p : ℤ) :
    normAg (a.notifySwap p) = normAg (b.notifySwap p) := by
  simp only [Agent.notifySwap, normAg, Agent.mk.injEq]
  rw [normAg_goal h, normAg_patience h, normAg_jamCount h,
    normAg_waitTicks h, normAg_stubbornness h]
  simp

lemma decide_norm {a b : Agent} (h : normAg a = normAg b)
    (l1 l2 r1 r2 : Option Agent) (hl : l1.isSome = l2.isSome)
    (hr : r1.isSome = r2.isSome) :
    Prod.map normAg id (Agent.decide a l1 r1) =
      Prod.map normAg id (Agent.decide b l2 r2) := by
  have hp := normAg_pos h
  have hg := normAg_goal h
  have hpa := normAg_patience h
  have hj := normAg_jamCount h
  have hw := normAg_waitTicks h
  have hst := normAg_stubbornness h
  have hag : a.atGoal = b.atGoal := by
    unfold Agent.atGoal
    rw [hp, hg]
  have hdist : a.distanceToGoal = b.distanceToGoal := by
    unfold Agent.distanceToGoal
    rw [hp, hg]
  unfold Agent.decide
  rw [hag, hdist, hw, hj, hpa]
  by_cases h1 : b.atGoal = true
  · simp only [h1, if_true]
    simp [normAg, Agent.mk.injEq, Prod.ext_iff, hp, hg, hpa, hj, hw, hst]
  · simp only [h1, if_false]
    by_cases h2 : b.waitTicks > 0
    · simp only [if_pos h2]
      simp [normAg, Agent.mk.injEq, Prod.ext_iff, hp, hg, hpa, hj, hst]
    · simp only [if_neg h2]
      by_cases h3 : b.distanceToGoal > 0
      · simp only [if_pos h3,
          if_neg (show ¬ ((1:ℤ) = -1) from by norm_num)]
        cases r1 with
        | none =>
          cases r2 with
          | none =>
            try dsimp only
            simp [normAg, Agent.mk.injEq, Prod.ext_iff, hp, hg, hpa, hj,
              hw, hst]
          | some y => simp at hr
        | some x =>
          cases r2 with
          | none => simp at hr
          | some y =>
            try dsimp only
            by_cases h4 : b.jamCount ≥ b.patience
            · simp only [if_pos h4]
              simp [normAg, Agent.mk.injEq, Prod.ext_iff, hp, hg, hpa,
                hw, hst]
            · simp only [if_neg h4]
              simp [normAg, Agent.mk.injEq, Prod.ext_iff, hp, hg, hpa,
                hj, hw, hst]
      · simp only [if_neg h3,
          if_pos (show ((-1:ℤ) = -1) from rfl)]
        cases l1 with
        | none =>
          cases l2 with
          | none =>
            try dsimp only
            simp [normAg, Agent.mk.injEq, Prod.ext_iff, hp, hg, hpa, hj,
              hw, hst]
          | some y => simp at hl
        | some x =>
          cases l2 with
          | none => simp at hl
          | some y =>
            try dsimp only
            by_cases h4 : b.jamCount ≥ b.patience
            · simp only [if_pos h4]
              simp [normAg, Agent.mk.injEq, Prod.ext_iff, hp, hg, hpa,
                hw, hst]
            · simp only [if_neg h4]
              simp [normAg, Agent.mk.injEq, Prod.ext_iff, hp, hg, hpa,
                hj, hw, hst]

lemma map_norm_getElem? {l1 l2 : List Agent}
    (h : l1.map normAg = l2.map normAg) (i : ℕ) :
    l1[i]?.map normAg = l2[i]?.map normAg := by
  rw [← List.getElem?_map, ← List.getElem?_map, h]

lemma map_norm_length {l1 l2 : List Agent}
    (h : l1.map normAg = l2.map normAg) : l1.length = l2.length := by
  have h2 := congrArg List.length h
  simpa using h2

lemma norm_getElem?_none {l1 l2 : List Agent}
    (h : l1.map normAg = l2.map normAg) {i : ℕ}
    (h1 : l1[i]? = none) : l2[i]? = none := by
  have hg := map_norm_getElem? h i
  rw [h1] at hg
  rcases h2 : l2[i]? with _ | a2
  · rfl
  · rw [h2] at hg
    simp at hg

lemma norm_getElem?_some {l1 l2 : List Agent}
    (h : l1.map normAg = l2.map normAg) {i : ℕ} {a1 : Agent}
    (h1 : l1[i]? = some a1) :
    ∃ a2, l2[i]? = some a2 ∧ normAg a1 = normAg a2 := by
  have hg := map_norm_getElem? h i
  rw [h1] at hg
  rcases h2 : l2[i]? with _ | a2
  · rw [h2] at hg
    simp at hg
  · rw [h2] at hg
    refine ⟨a2, rfl, ?_⟩
    simpa using hg

lemma map_norm_isSome {l1 l2 : List Agent}
    (h : l1.map normAg = l2.map normAg) (i : ℕ) :
    l1[i]?.isSome = l2[i]?.isSome := by
  have hg := congrArg Option.isSome (map_norm_getElem? h i)
  simpa using hg

lemma collectIntents_norm :
    ∀ (order : List ℕ) (l1 l2 : List Agent) (it1 it2 : ℕ → Option Intent),
      l1.map normAg = l2.map normAg → (∀ j, it1 j = it2 j) →
      ((collectIntents l1 order it1).1.map normAg =
        (collectIntents l2 order it2).1.map normAg) ∧
      (∀ j, (collectIntents l1 order it1).2 j =
        (collectIntents l2 order it2).2 j)
  | [], _, _, _, _, h, hit => ⟨h, hit⟩
  | i :: rest, l1, l2, it1, it2, h, hit => by
    unfold collectIntents
    rcases h1 : l1[i]? with _ | a1
    · rw [norm_getElem?_none h h1]
      exact collectIntents_norm rest l1 l2 it1 it2 h hit
    · obtain ⟨a2, h2, hga⟩ := norm_getElem?_some h h1
      rw [h2]
      dsimp only
      have hlen := map_norm_length h
      have hl : (if 0 < i then l1[i - 1]? else none).isSome =
          (if 0 < i then l2[i - 1]? else none).isSome := by
        by_cases h0 : 0 < i
        · simp only [if_pos h0]
          exact map_norm_isSome h (i - 1)
        · simp only [if_neg h0]
      have hnb : (if i + 1 < l1.length then l1[i + 1]? else none).isSome =
          (if i + 1 < l2.length then l2[i + 1]? else none).isSome := by
        rw [hlen]
        by_cases h0 : i + 1 < l2.length
        · simp only [if_pos h0]
          exact map_norm_isSome h (i + 1)
        · simp only [if_neg h0]
      have hdec := decide_norm hga
        (if 0 < i then l1[i - 1]? else none)
        (if 0 < i then l2[i - 1]? else none)
        (if i + 1 < l1.length then l1[i + 1]? else none)
        (if i + 1 < l2.length then l2[i + 1]? else none) hl hnb
      have hfst : normAg (Agent.decide a1
            (if 0 < i then l1[i - 1]? else none)
            (if i + 1 < l1.length then l1[i + 1]? else none)).1 =
          normAg (Agent.decide a2
            (if 0 < i then l2[i - 1]? else none)
            (if i + 1 < l2.length then l2[i + 1]? else none)).1 :=
        (Prod.ext_iff.mp hdec).1
      have hsnd : (Agent.decide a1
            (if 0 < i then l1[i - 1]? else none)
            (if i + 1 < l1.length then l1[i + 1]? else none)).2 =
          (Agent.decide a2
            (if 0 < i then l2[i - 1]? else none)
            (if i + 1 < l2.length then l2[i + 1]? else none)).2 :=
        (Prod.ext_iff.mp hdec).2
      apply collectIntents_norm rest
      · rw [List.map_set, List.map_set, h, hfst]
      · intro j
        by_cases hj : j = i
        · subst hj
          rw [if_pos rfl, if_pos rfl, hsnd]
        · rw [if_neg hj, if_neg hj, hit j]

lemma ResState.swapAg_consumed (st : ResState) (i j : ℕ) :
    (st.swapAg i j).consumed = st.consumed := by
  unfold ResState.swapAg
  split <;> rfl

lemma swapAg_norm {st1 st2 : ResState}
    (h : st1.agents.map normAg = st2.agents.map normAg) (i j : ℕ) :
    (st1.swapAg i j).agents.map normAg =
      (st2.swapAg i j).agents.map normAg := by
  unfold ResState.swapAg
  rcases h1 : st1.agents[i]? with _ | a1
  · rw [norm_getElem?_none h h1]
    exact h
  · obtain ⟨a2, h2, hga⟩ := norm_getElem?_some h h1
    rw [h2]
    rcases h3 : st1.agents[j]? with _ | b1
    · rw [norm_getElem?_none h h3]
      exact h
    · obtain ⟨b2, h4, hgb⟩ := norm_getElem?_some h h3
      rw [h4]
      dsimp only
      simp only [List.map_set]
      rw [notifySwap_norm hgb, notifySwap_norm hga, h]

lemma resolveStep_norm (it1 it2 : ℕ → Option Intent)
    (hit : ∀ j, it1 j = it2 j) (rn : ℕ → ℚ) (st1 st2 : ResState)
    (hA : st1.agents.map normAg = st2.agents.map normAg)
    (hC : st1.consumed = st2.consumed) (hK : st1.rk = st2.rk) (i : ℕ) :
    ((resolveStep it1 rn st1 i).agents.map normAg =
      (resolveStep it2 rn st2 i).agents.map normAg) ∧
    (resolveStep it1 rn st1 i).consumed =
      (resolveStep it2 rn st2 i).consumed ∧
    (resolveStep it1 rn st1 i).rk = (resolveStep it2 rn st2 i).rk := by
  have hlen := map_norm_length hA
  unfold resolveStep
  dsimp only
  rw [hit i, hC, hK, hlen]
  split
  · exact ⟨hA, hC, hK⟩
  · rcases hint : it2 i with _ | intent
    · exact ⟨hA, hC, hK⟩
    · dsimp only
      split
      · exact ⟨hA, hC, hK⟩
      · split
        · exact ⟨hA, hC, hK⟩
        · split
          · exact ⟨hA, hC, hK⟩
          · rcases h1 : st1.agents[i]? with _ | a1
            · rw [norm_getElem?_none hA h1]
              exact ⟨hA, hC, hK⟩
            · obtain ⟨a2, h2, hga⟩ := norm_getElem?_some hA h1
              rw [h2]
              rcases h3 :
                  st1.agents[((i : ℤ) + intent.direction).toNat]? with
                _ | b1
              · rw [norm_getElem?_none hA h3]
                exact ⟨hA, hC, hK⟩
              · obtain ⟨b2, h4, hgb⟩ := norm_getElem?_some hA h3
                rw [h4]
                dsimp only
                split
                · refine ⟨swapAg_norm ?_ _ _, rfl, ?_⟩
                  · exact hA
                  · rw [ResState.swapAg_rk, ResState.swapAg_rk]
                    exact hK
                · rw [considerSwap_norm hgb]
                  split
                  · refine ⟨swapAg_norm ?_ _ _, rfl, ?_⟩
                    · exact hA
                    · rw [ResState.swapAg_rk, ResState.swapAg_rk]
                  · refine ⟨?_, rfl, rfl⟩
                    simp only [List.map_set]
                    rw [notifyJam_norm hga, hA]

lemma resolve_fold_norm (it1 it2 : ℕ → Option Intent) (rn : ℕ → ℚ)
    (hit : ∀ j, it1 j = it2 j) :
    ∀ (order : List ℕ) (st1 st2 : ResState),
      st1.agents.map normAg = st2.agents.map normAg →
      st1.consumed = st2.consumed → st1.rk = st2.rk →
      ((order.foldl (resolveStep it1 rn) st1).agents.map normAg =
        (order.foldl (resolveStep it2 rn) st2).agents.map normAg)
  | [], _, _, hA, _, _ => hA
  | i :: rest, st1, st2, hA, hC, hK => by
    have hstep := resolveStep_norm it1 it2 hit rn st1 st2 hA hC hK i
    exact resolve_fold_norm it1 it2 rn hit rest _ _ hstep.1 hstep.2.1
      hstep.2.2

lemma all_atGoal_of_norm {l1 l2 : List Agent}
    (h : l1.map normAg = l2.map normAg) :
    l1.all Agent.atGoal = l2.all Agent.atGoal := by
  have e1 : l1.all Agent.atGoal = (l1.map normAg).all Agent.atGoal := by
    rw [List.all_map]
    rfl
  rw [e1, h, List.all_map]
  rfl

lemma Simulation.isSorted_of_norm {s1 s2 : Simulation}
    (h : s1.agents.map normAg = s2.agents.map normAg) :
    s1.isSorted = s2.isSorted :=
  all_atGoal_of_norm h

lemma tick_norm {s1 s2 : Simulation} (o : TickOracle)
    (h : s1.agents.map normAg = s2.agents.map normAg) :
    (s1.tick o).agents.map normAg = (s2.tick o).agents.map normAg := by
  have hs := Simulation.isSorted_of_norm h
  unfold Simulation.tick
  rw [hs]
  split
  · simp only [List.map_map]
    have hcomp : (normAg ∘ fun a : Agent =>
        { a with state := AState.satisfied }) = normAg := rfl
    rw [hcomp]
    exact h
  · dsimp only
    have hlen := map_norm_length h
    rw [hlen]
    have hcol := collectIntents_norm
      (shuffleJS o.orderDraws (List.range s2.agents.length))
      s1.agents s2.agents (fun _ => none) (fun _ => none) h (fun _ => rfl)
    exact resolve_fold_norm _ _ o.rand hcol.2 _ _ _ hcol.1 rfl rfl

/-- One tick of the claim-C4 run (order `[0,1,2]`, all draws 1/2). -/
def tickC4 (s : Simulation) : Simulation := s.tick oracleHalf

/-- The claim-C4 run: values `[3,2,1]`, stubbornness 0, ticked `k` times
with the fixed order `[0,1,2]` and all-accepting draws. -/
def c4run (k : ℕ) : Simulation := tickC4^[k] simRev3

lemma c4_cycle_norm :
    (tickC4 (tickC4 simRev3)).agents.map normAg =
      simRev3.agents.map normAg := by decide

lemma c4run_even_norm :
    ∀ k, (c4run (2 * k)).agents.map normAg = simRev3.agents.map normAg
  | 0 => rfl
  | k + 1 => by
    have ih := c4run_even_norm k
    have e0 : 2 * (k + 1) = (2 * k) + 1 + 1 := by ring
    have e1 : c4run (2 * (k + 1)) = tickC4 (tickC4 (c4run (2 * k))) := by
      show tickC4^[2 * (k + 1)] simRev3 = _
      rw [e0, Function.iterate_succ_apply', Function.iterate_succ_apply']
      rfl
    rw [e1]
    have h1 := tick_norm oracleHalf ih
    have h2 := tick_norm oracleHalf h1
    exact h2.trans c4_cycle_norm

/- ------------------------------------------------------------------ -/
/- Claim C4 (corrected): no disorder-proportional tick bound exists.   -/
/- ------------------------------------------------------------------ -/

/-- C4 counterexample: a 3-agent shuffle `[3,2,1]` with stubbornness 0,
ticked with the identity evaluation order and all draws 1/2 (every
`considerSwap` accepts, since 1/2 > 0): the dynamics-relevant state returns
to itself after two ticks while still unsorted, each tick performing a swap
and no jam — so ticking can cycle forever despite zero stubbornness. -/
theorem C4_counterexample_two_tick_cycle :
    ((simRev3.tick oracleHalf).tick oracleHalf).agents.map normAg =
      simRev3.agents.map normAg ∧
    simRev3.isSorted = false ∧
    (simRev3.tick oracleHalf).isSorted = false ∧
    simRev3.agents.map (fun a => a.stubbornness) = [0, 0, 0] ∧
    (simRev3.tick oracleHalf).swaps = simRev3.swaps + 1 ∧
    (simRev3.tick oracleHalf).jams = 0 := by
  refine ⟨by decide, by decide, by decide, by decide, by decide, by decide⟩

/-- C4 (amended): with stubbornness fixed at 0 every engine-issued swap
request whose draw is positive is accepted, yet repeated ticking from an
initial shuffle need NOT reach `sorted = true` within any bounded number of
ticks: on the `[3,2,1]` shuffle there is a sequence of per-tick orders and
accepting draws (each of positive probability) under which the simulation
cycles with period two and is unsorted after every number of ticks.
Convergence is at best probabilistic; no tick bound proportional to the
array's disorder exists. -/
theorem C4_no_bounded_convergence :
    (simRev3.agents.map (fun a => a.stubbornness) = [0, 0, 0]) ∧
    ∀ t : ℕ, (c4run t).isSorted = false := by
  refine ⟨by decide, ?_⟩
  intro t
  obtain ⟨k, hk | hk⟩ : ∃ k, t = 2 * k ∨ t = 2 * k + 1 := ⟨t / 2, by omega⟩
  · subst hk
    rw [Simulation.isSorted_of_norm (c4run_even_norm k)]
    decide
  · subst hk
    have e1 : c4run (2 * k + 1) = tickC4 (c4run (2 * k)) :=
      Function.iterate_succ_apply' tickC4 (2 * k) simRev3
    rw [e1]
    show ((c4run (2 * k)).tick oracleHalf).isSorted = false
    rw [Simulation.isSorted_of_norm
      (tick_norm oracleHalf (c4run_even_norm k))]
    decide
